import Mathlib

/-!
Verification development for the `bitter` crate (runtime-described bitfields).

The embedding translates `src/types.rs` and `src/values.rs` into Lean.
Rust `usize` values are modelled as `Nat`; the arithmetic operations that can
overflow or underflow a `usize` within the reach of the properties below
(`low + field.size() - 1`, `high - low`, `2_usize.pow(width)`, `data >> low`)
are modelled as checked operations whose overflow outcome is an explicit
`panic` result, matching Rust's overflow checks (debug assertions).
`usize` additions that only overflow for structures whose total width reaches
2^64 are left as plain `Nat` addition.
-/

namespace Bitter

/-- Outcome of a computation over Rust integers: `panic` models an arithmetic
overflow/underflow panic, `value` a normal result. -/
inductive PanicOr (α : Type) where
  | panic : PanicOr α
  | value : α → PanicOr α
deriving DecidableEq, Repr

/-- `Field` from src/types.rs: one bit-field description.  The `EnumMapping`
(`HashMap<usize, String>`) is modelled as an association list; no property
below distinguishes two mappings that hold the same pairs in different
order, so list equality stands in for the map's extensional equality. -/
inductive Field where
  | Reserved : Nat → Field
  | Boolean : String → Field
  | Integer : String → Nat → Field
  | Enum : String → Nat → List (Nat × String) → Field
deriving DecidableEq, Repr

/-- `Field::size` from src/types.rs. -/
def Field.size : Field → Nat
  | .Reserved n => n
  | .Boolean _ => 1
  | .Integer _ n => n
  | .Enum _ n _ => n

/-- `Field::get_name` from src/types.rs. -/
def Field.get_name : Field → Option String
  | .Reserved _ => none
  | .Boolean name => some name
  | .Integer name _ => some name
  | .Enum name _ _ => some name

/-- `Structure` from src/types.rs: a named, ordered list of fields. -/
structure Structure where
  name : String
  fields : List Field
deriving DecidableEq, Repr

/-- `Structure::new` from src/types.rs. -/
def Structure.new (name : String) (fields : List Field) : Structure :=
  ⟨name, fields⟩

/-- `Structure::append` from src/types.rs: `self.fields.push(field)`. -/
def Structure.append (s : Structure) (f : Field) : Structure :=
  ⟨s.name, s.fields ++ [f]⟩

/-- `Structure::size` from src/types.rs:
`self.fields.iter().fold(0, |acc, field| acc + field.size())`. -/
def Structure.size (s : Structure) : Nat :=
  s.fields.foldl (fun acc field => acc + field.size) 0

/-- The scan loop of `Structure::get_field`: return the first field whose
`get_name()` equals `field_name`. -/
def getFieldLoop (field_name : String) : List Field → Option Field
  | [] => none
  | f :: rest =>
    match f.get_name with
    | some name => if name = field_name then some f else getFieldLoop field_name rest
    | none => getFieldLoop field_name rest

/-- `Structure::get_field` from src/types.rs. -/
def Structure.get_field (s : Structure) (field_name : String) : Option Field :=
  getFieldLoop field_name s.fields

/-- The scan loop of `Structure::get_range`: walk the fields accumulating
`low`; at the first field structurally equal to `field_match` return
`(low + size - 1, low)`.  When `low + size = 0` the Rust expression
`low + field.size() - 1` underflows `usize`, modelled as `panic`. -/
def getRangeLoop (field_match : Field) : List Field → Nat → PanicOr (Option (Nat × Nat))
  | [], _ => .value none
  | f :: rest, low =>
    if f = field_match then
      if low + f.size = 0 then .panic
      else .value (some (low + f.size - 1, low))
    else getRangeLoop field_match rest (low + f.size)

/-- `Structure::get_range` from src/types.rs. -/
def Structure.get_range (s : Structure) (field_name : String) : PanicOr (Option (Nat × Nat)) :=
  match s.get_field field_name with
  | some field_match => getRangeLoop field_match s.fields 0
  | none => .value none

/-- `mask` from src/values.rs: `2_usize.pow(bits as u32) - 1`.  The cast
`bits as u32` truncates modulo 2^32; the power overflows `usize` (panic)
when the truncated exponent reaches 64. -/
def mask (bits : Nat) : PanicOr Nat :=
  if 64 ≤ bits % 2 ^ 32 then .panic
  else .value (2 ^ (bits % 2 ^ 32) - 1)

/-- `Value` from src/values.rs.  The Rust field `structure` is renamed
`struct` is a Lean keyword, so the field is called `strct`. -/
structure Value where
  data : Nat
  strct : Structure
deriving Repr

/-- `Value::new` from src/values.rs. -/
def Value.new (data : Nat) (strct : Structure) : Value :=
  ⟨data, strct⟩

/-- `Value::get_as_integer` from src/values.rs:
`range.map(|(high, low)| { let width = high - low + 1;
 let shifted = self.data >> low; shifted & mask(width) })`.
`high - low` underflows when `high < low`; `data >> low` overflows the
shift when `low ≥ 64` (the `usize` width); both are modelled as `panic`. -/
def Value.get_as_integer (v : Value) (name : String) : PanicOr (Option Nat) :=
  match v.strct.get_range name with
  | .panic => .panic
  | .value none => .value none
  | .value (some (high, low)) =>
    if high < low then .panic
    else
      let width := high - low + 1
      if 64 ≤ low then .panic
      else
        match mask width with
        | .panic => .panic
        | .value m => .value (some ((v.data >>> low) &&& m))

/-- `Value::get_integer` from src/values.rs: delegates to `get_as_integer`. -/
def Value.get_integer (v : Value) (name : String) : PanicOr (Option Nat) :=
  v.get_as_integer name

/-- `Value::get_bool` from src/values.rs: `raw.map(|integer| integer == 1)`. -/
def Value.get_bool (v : Value) (name : String) : PanicOr (Option Bool) :=
  match v.get_as_integer name with
  | .panic => .panic
  | .value raw => .value (raw.map (fun integer => integer == 1))

/-- Total width of a list of fields (specification-side sum). -/
def sizeSum (l : List Field) : Nat :=
  (l.map Field.size).sum

theorem sizeSum_append (a b : List Field) : sizeSum (a ++ b) = sizeSum a + sizeSum b := by
  simp [sizeSum]

theorem foldl_add_size (l : List Field) (a : Nat) :
    l.foldl (fun acc field => acc + field.size) a = a + sizeSum l := by
  induction l generalizing a with
  | nil => simp [sizeSum]
  | cons f rest ih => simp [List.foldl_cons, ih, sizeSum, Nat.add_assoc]

theorem size_eq_sizeSum (s : Structure) : s.size = sizeSum s.fields := by
  simpa using foldl_add_size s.fields 0

theorem getFieldLoop_append_of_no_name (n : String) (pre l : List Field)
    (hpre : ∀ g ∈ pre, g.get_name ≠ some n) :
    getFieldLoop n (pre ++ l) = getFieldLoop n l := by
  induction pre with
  | nil => simp
  | cons g rest ih =>
    have hg : g.get_name ≠ some n := hpre g (by simp)
    have hrest : ∀ g' ∈ rest, g'.get_name ≠ some n := fun g' hg' => hpre g' (by simp [hg'])
    rcases hgn : g.get_name with _ | m
    · simpa [getFieldLoop, hgn] using ih hrest
    · have hm : m ≠ n := fun h => hg (by simp [hgn, h])
      simpa [getFieldLoop, hgn, hm] using ih hrest

theorem getFieldLoop_cons_self (n : String) (f : Field) (l : List Field)
    (hn : f.get_name = some n) : getFieldLoop n (f :: l) = some f := by
  simp [getFieldLoop, hn]

theorem getRangeLoop_append_of_ne (m : Field) (pre l : List Field) (low : Nat)
    (hpre : ∀ g ∈ pre, g ≠ m) :
    getRangeLoop m (pre ++ l) low = getRangeLoop m l (low + sizeSum pre) := by
  induction pre generalizing low with
  | nil => simp [sizeSum]
  | cons g rest ih =>
    have hg : g ≠ m := hpre g (by simp)
    have hrest : ∀ g' ∈ rest, g' ≠ m := fun g' hg' => hpre g' (by simp [hg'])
    have harith : low + g.size + sizeSum rest = low + sizeSum (g :: rest) := by
      simp only [sizeSum, List.map_cons, List.sum_cons]
      omega
    simp only [List.cons_append, getRangeLoop, if_neg hg, List.append_eq]
    rw [ih (low + g.size) hrest, harith]

theorem getRangeLoop_cons_self (m : Field) (l : List Field) (low : Nat) :
    getRangeLoop m (m :: l) low =
      if low + m.size = 0 then .panic else .value (some (low + m.size - 1, low)) := by
  simp [getRangeLoop]

/-- Behavior of `get_range` at the first field carrying the looked-up name:
`low` is the total size of the fields strictly before it in the declared
list, and `low + size - 1` underflows exactly when `low + size = 0`. -/
theorem get_range_first_match (s : Structure) (pre post : List Field) (f : Field)
    (n : String) (hs : s.fields = pre ++ f :: post) (hn : f.get_name = some n)
    (hpre : ∀ g ∈ pre, g.get_name ≠ some n) :
    s.get_range n =
      if sizeSum pre + f.size = 0 then .panic
      else .value (some (sizeSum pre + f.size - 1, sizeSum pre)) := by
  have hfield : s.get_field n = some f := by
    rw [Structure.get_field, hs, getFieldLoop_append_of_no_name n pre _ hpre,
      getFieldLoop_cons_self n f post hn]
  have hne : ∀ g ∈ pre, g ≠ f := by
    intro g hg hgf
    exact hpre g hg (hgf ▸ hn)
  have hrange : s.get_range n = getRangeLoop f s.fields 0 := by
    simp [Structure.get_range, hfield]
  rw [hrange, hs, getRangeLoop_append_of_ne f pre _ 0 hne, getRangeLoop_cons_self]
  simp

/-- C1, counterexample.  The structure `[Integer "a" 1, Integer "b" 2]` has
unique names and contains the named field `"a"`; the fields after `"a"` have
total size 2, so the claim predicts `get_range "a" = some (2 + 1 - 1, 2)
= some (2, 2)`.  The code instead accumulates `low` over the fields BEFORE
the match and returns `some (0, 0)`. -/
theorem C1_counterexample :
    (((Structure.new "s" [Field.Integer "a" 1, Field.Integer "b" 2]).fields.filterMap
        Field.get_name).Nodup) ∧
    (Structure.new "s" [Field.Integer "a" 1, Field.Integer "b" 2]).get_range "a"
        ≠ .value (some (2, 2)) ∧
    (Structure.new "s" [Field.Integer "a" 1, Field.Integer "b" 2]).get_range "a"
        = .value (some (0, 0)) := by decide

/-- C1 (amended): for every Structure whose non-Reserved field names are
unique and every named positive-width field `f` it contains,
`get_range` on `f`'s name returns `some (low + f.size - 1, low)` where `low`
is the sum of the sizes of the fields BEFORE `f` in the declared sequence
(the declared sequence is least-significant-first: the first field holds bit
offset 0, as the crate docs in src/lib.rs state). -/
theorem C1_low_is_size_before (s : Structure) (pre post : List Field) (f : Field)
    (n : String) (hs : s.fields = pre ++ f :: post) (hn : f.get_name = some n)
    (hnodup : (s.fields.filterMap Field.get_name).Nodup) (hpos : 1 ≤ f.size) :
    s.get_range n = .value (some (sizeSum pre + f.size - 1, sizeSum pre)) := by
  have hpre : ∀ g ∈ pre, g.get_name ≠ some n := by
    intro g hg hgn
    have hsplit : s.fields.filterMap Field.get_name
        = pre.filterMap Field.get_name ++ n :: post.filterMap Field.get_name := by
      simp [hs, List.filterMap_append, List.filterMap_cons, hn]
    rw [hsplit] at hnodup
    have hdisj := List.disjoint_of_nodup_append hnodup
    exact hdisj (List.mem_filterMap.mpr ⟨g, hg, hgn⟩) (by simp)
  have hmain := get_range_first_match s pre post f n hs hn hpre
  rw [hmain, if_neg (by omega)]

/-- Witness for C1: in `[Integer "a" 1, Integer "b" 2]` the field `"b"` is
preceded by 1 bit, so its range is `(1 + 2 - 1, 1) = (2, 1)`. -/
theorem C1_low_is_size_before_witness :
    (Structure.new "s" [Field.Integer "a" 1, Field.Integer "b" 2]).get_range "b"
      = .value (some (2, 1)) :=
  C1_low_is_size_before _ [Field.Integer "a" 1] [] (Field.Integer "b" 2) "b"
    (by rfl) (by rfl) (by decide) (by decide)

/-- C2, counterexample.  On `[Integer "lifetime" 4, Boolean "active"]` the
code gives `"lifetime"` (the FIRST field) the bits from offset 0, returning
`some (3, 0)`, and `"active"` the top bit, `some (4, 4)` — not the claimed
`some (4, 1)` / `some (0, 0)`. -/
theorem C2_counterexample :
    ¬ ((Structure.new "reg" [Field.Integer "lifetime" 4, Field.Boolean "active"]).get_range
          "lifetime" = .value (some (4, 1)) ∧
       (Structure.new "reg" [Field.Integer "lifetime" 4, Field.Boolean "active"]).get_range
          "active" = .value (some (0, 0))) := by decide

/-- C2 (amended): for the declared sequence
`[integer("lifetime", 4), boolean("active")]` the first field is the LEAST
significant, so `get_range "lifetime" = some (3, 0)` and
`get_range "active" = some (4, 4)`.  (The spec's expected values
`(4, 1)` / `(0, 0)` arise from the reversed declared order, which is the one
the code's own doctest uses.) -/
theorem C2_worked_example :
    (Structure.new "reg" [Field.Integer "lifetime" 4, Field.Boolean "active"]).get_range
        "lifetime" = .value (some (3, 0)) ∧
    (Structure.new "reg" [Field.Integer "lifetime" 4, Field.Boolean "active"]).get_range
        "active" = .value (some (4, 4)) := by decide

/-- C3, counterexample.  With declared order
`[Integer "high_byte_b" 8, Integer "high_nibble_a" 4, Integer "low_nibble_a" 4]`
the FIRST field occupies bits 7..0, so `"high_nibble_a"` occupies bits 11..8
and extraction from `0xFFE5` yields `0xF`, not the claimed `0xE`. -/
theorem C3_counterexample :
    (Value.new 0xFFE5 (Structure.new "reg"
      [Field.Integer "high_byte_b" 8, Field.Integer "high_nibble_a" 4,
       Field.Integer "low_nibble_a" 4])).get_integer "high_nibble_a"
      ≠ .value (some 0xE) := by decide

/-- C3 (amended): same input, the code returns `some 0xF`
(`(0xFFE5 >> 8) & 0xF`).  The spec's `0xE` arises from the reversed declared
order used by the code's own doctest. -/
theorem C3_worked_example :
    (Value.new 0xFFE5 (Structure.new "reg"
      [Field.Integer "high_byte_b" 8, Field.Integer "high_nibble_a" 4,
       Field.Integer "low_nibble_a" 4])).get_integer "high_nibble_a"
      = .value (some 0xF) := by decide

/-- C4, counterexample.  Appending `Integer "b" 2` to the one-field structure
`[Integer "a" 1]` places it at the END of the list, which is the
most-significant position: `get_range "b" = some (2, 1)`, not the claimed
`some (f.size - 1, 0) = some (1, 0)`. -/
theorem C4_counterexample :
    ((Structure.new "s" [Field.Integer "a" 1]).append (Field.Integer "b" 2)).get_range "b"
        ≠ .value (some (1, 0)) ∧
    ((Structure.new "s" [Field.Integer "a" 1]).append (Field.Integer "b" 2)).get_range "b"
        = .value (some (2, 1)) := by decide

/-- C4 (amended): for every Structure `s` and named field `f` of positive
width whose name does not occur in `s`, the appended field is the new
MOST-significant element: `get_range` on `f`'s name returns
`some (s.size + f.size - 1, s.size)`, i.e. `f` occupies the bits above all
existing fields.  (It returns `some (f.size - 1, 0)` only when `s` is
empty.) -/
theorem C4_append_is_most_significant (s : Structure) (f : Field) (n : String)
    (hn : f.get_name = some n) (hpos : 1 ≤ f.size)
    (hfresh : ∀ g ∈ s.fields, g.get_name ≠ some n) :
    (s.append f).get_range n = .value (some (s.size + f.size - 1, s.size)) := by
  have hs : (s.append f).fields = s.fields ++ f :: [] := by
    simp [Structure.append]
  have hmain := get_range_first_match (s.append f) s.fields [] f n hs hn hfresh
  rw [hmain, if_neg (by omega), size_eq_sizeSum]

/-- Witness for C4: appending `Integer "b" 2` to `[Integer "a" 1]` gives
`get_range "b" = some (1 + 2 - 1, 1) = some (2, 1)`. -/
theorem C4_append_is_most_significant_witness :
    ((Structure.new "s" [Field.Integer "a" 1]).append (Field.Integer "b" 2)).get_range "b"
      = .value (some (2, 1)) :=
  C4_append_is_most_significant _ (Field.Integer "b" 2) "b" (by rfl) (by decide) (by decide)

/-- C5, counterexample.  For `data = 1` over `[Reserved 64, Integer "x" 1]`,
`get_range "x" = some (64, 64)` and the width `high - low + 1 = 1` lies in
the claim's bounds `[1, 63]`; but `data >> 64` overflows the 64-bit shift
(Rust panics under debug assertions; a release build masks the shift amount
to 0 and extracts the wrong bit), so `get_integer` does not return
`Some((data >> low) & (2^width - 1))` as claimed. -/
theorem C5_counterexample :
    (Value.new 1 (Structure.new "s"
        [Field.Reserved 64, Field.Integer "x" 1])).strct.get_range "x"
        = .value (some (64, 64)) ∧
    (Value.new 1 (Structure.new "s"
        [Field.Reserved 64, Field.Integer "x" 1])).get_integer "x" = .panic ∧
    (Value.new 1 (Structure.new "s"
        [Field.Reserved 64, Field.Integer "x" 1])).get_integer "x"
        ≠ .value (some ((1 >>> 64) &&& (2 ^ 1 - 1))) := by decide

/-- C5 (amended): if `get_range n` is `none` then `get_integer n` is `none`;
if `get_range n = some (high, low)` with `1 ≤ width = high - low + 1 ≤ 63`
and additionally `low ≤ 63` (so the right shift stays within the 64-bit
word), then `get_integer n = some ((data >> low) &&& (2^width - 1))`. -/
theorem C5_get_integer_formula (v : Value) (n : String) :
    (v.strct.get_range n = .value none → v.get_integer n = .value none) ∧
    (∀ high low : Nat, v.strct.get_range n = .value (some (high, low)) →
      low ≤ high → high - low + 1 ≤ 63 → low ≤ 63 →
      v.get_integer n = .value (some ((v.data >>> low) &&& (2 ^ (high - low + 1) - 1)))) := by
  constructor
  · intro h
    simp [Value.get_integer, Value.get_as_integer, h]
  · intro high low hr hlh hw hlow
    have hnlt : ¬ high < low := by omega
    have hn64 : ¬ 64 ≤ low := by omega
    have hmod : (high - low + 1) % 2 ^ 32 = high - low + 1 :=
      Nat.mod_eq_of_lt (by omega)
    have hw' : ¬ 64 ≤ high - low + 1 := by omega
    have hmask : mask (high - low + 1) = .value (2 ^ (high - low + 1) - 1) := by
      simp only [mask]
      rw [hmod, if_neg hw']
    simp [Value.get_integer, Value.get_as_integer, hr, hnlt, hn64, hmask]

/-- Witness for C5: an unknown name propagates `none`, and on
`data = 0xFFE5` over `[Integer "lo" 4, Integer "hi" 12]` the field `"lo"`
resolves to `(3, 0)` and extracts by the shift-and-mask formula. -/
theorem C5_get_integer_formula_witness :
    (Value.new 5 (Structure.new "s" [Field.Integer "f" 4])).get_integer "zzz"
        = .value none ∧
    (Value.new 0xFFE5 (Structure.new "reg"
        [Field.Integer "lo" 4, Field.Integer "hi" 12])).get_integer "lo"
        = .value (some ((0xFFE5 >>> 0) &&& (2 ^ (3 - 0 + 1) - 1))) :=
  ⟨(C5_get_integer_formula _ "zzz").1 (by decide),
   (C5_get_integer_formula _ "lo").2 3 0 (by decide) (by decide) (by decide) (by decide)⟩

/-- C6: when a field resolves to the extracted integer `x`, `get_bool`
returns `some true` exactly when `x = 1` and `some false` exactly otherwise
(including every `x > 1`): a strict equality test, not a nonzero test. -/
theorem C6_get_bool_strict_equality (v : Value) (n : String) (x : Nat)
    (h : v.get_integer n = .value (some x)) :
    (v.get_bool n = .value (some true) ↔ x = 1) ∧
    (v.get_bool n = .value (some false) ↔ x ≠ 1) := by
  have h' : v.get_as_integer n = .value (some x) := h
  constructor
  · simp [Value.get_bool, h']
  · simp [Value.get_bool, h', beq_eq_false_iff_ne]

/-- Witness for C6: the 3-bit field `"f"` over `data = 5` extracts `5`,
which is neither `some true` nor equal to 1, so `get_bool` is `some false`. -/
theorem C6_get_bool_strict_equality_witness :
    ((Value.new 5 (Structure.new "s" [Field.Integer "f" 3])).get_bool "f"
        = .value (some true) ↔ (5 : Nat) = 1) ∧
    ((Value.new 5 (Structure.new "s" [Field.Integer "f" 3])).get_bool "f"
        = .value (some false) ↔ (5 : Nat) ≠ 1) :=
  C6_get_bool_strict_equality _ "f" 5 (by decide)

/-- C7: for a name that matches no named field of the structure,
`get_field` returns `none` and `get_range`, `get_integer`, `get_bool` all
return a non-panicking absent result. -/
theorem C7_unknown_name_absent (v : Value) (n : String)
    (h : ∀ f ∈ v.strct.fields, f.get_name ≠ some n) :
    v.strct.get_field n = none ∧ v.strct.get_range n = .value none ∧
    v.get_integer n = .value none ∧ v.get_bool n = .value none := by
  have hfield : v.strct.get_field n = none := by
    have h0 := getFieldLoop_append_of_no_name n v.strct.fields [] h
    rw [List.append_nil] at h0
    simpa [Structure.get_field, getFieldLoop] using h0
  have hrange : v.strct.get_range n = .value none := by
    simp [Structure.get_range, hfield]
  refine ⟨hfield, hrange, ?_, ?_⟩
  · simp [Value.get_integer, Value.get_as_integer, hrange]
  · simp [Value.get_bool, Value.get_as_integer, hrange]

/-- Witness for C7: the name `"b"` does not occur in
`[Boolean "a", Reserved 3]`, so every lookup is absent. -/
theorem C7_unknown_name_absent_witness :
    (Value.new 7 (Structure.new "reg"
        [Field.Boolean "a", Field.Reserved 3])).strct.get_field "b" = none ∧
    (Value.new 7 (Structure.new "reg"
        [Field.Boolean "a", Field.Reserved 3])).strct.get_range "b" = .value none ∧
    (Value.new 7 (Structure.new "reg"
        [Field.Boolean "a", Field.Reserved 3])).get_integer "b" = .value none ∧
    (Value.new 7 (Structure.new "reg"
        [Field.Boolean "a", Field.Reserved 3])).get_bool "b" = .value none :=
  C7_unknown_name_absent _ "b" (by decide)

/-- C8: `Structure.size` equals the sum of the field sizes, is invariant
under any permutation of the declared order, and is 0 for the empty
Structure. -/
theorem C8_size_is_sum (s t : Structure) (h : s.fields.Perm t.fields) :
    s.size = (s.fields.map Field.size).sum ∧ s.size = t.size ∧
    (Structure.new "any" []).size = 0 := by
  refine ⟨?_, ?_, by decide⟩
  · rw [size_eq_sizeSum, sizeSum]
  · rw [size_eq_sizeSum, size_eq_sizeSum, sizeSum, sizeSum]
    exact (h.map Field.size).sum_eq

/-- Witness for C8: `[Boolean "a", Reserved 4, Integer "j" 3]` and a
permutation of it both have size `1 + 4 + 3 = 8`. -/
theorem C8_size_is_sum_witness :
    (Structure.new "s" [Field.Boolean "a", Field.Reserved 4, Field.Integer "j" 3]).size
        = ((Structure.new "s" [Field.Boolean "a", Field.Reserved 4,
            Field.Integer "j" 3]).fields.map Field.size).sum ∧
    (Structure.new "s" [Field.Boolean "a", Field.Reserved 4, Field.Integer "j" 3]).size
        = (Structure.new "t" [Field.Integer "j" 3, Field.Boolean "a", Field.Reserved 4]).size ∧
    (Structure.new "any" []).size = 0 :=
  C8_size_is_sum _ _ (by decide)

/-- C9, counterexample: for the structure holding only the zero-width named
field `Integer "z" 0`, `get_range "z"` evaluates `low + field.size() - 1 =
0 + 0 - 1`, which underflows `usize` (a panic under Rust's debug
assertions) instead of completing with a result. -/
theorem C9_counterexample :
    (Structure.new "s" [Field.Integer "z" 0]).get_range "z" = .panic := by decide

/-- C9 (amended): `get_range` on a zero-width named field completes without
panicking provided the first field carrying that name is preceded by fields
of positive total size; it then silently returns the incorrect inverted
range `(low - 1, low)`.  When the preceding size is zero the subtraction
`low + 0 - 1` underflows instead. -/
theorem C9_zero_width_inverted_range (s : Structure) (pre post : List Field)
    (f : Field) (n : String) (hs : s.fields = pre ++ f :: post)
    (hn : f.get_name = some n) (hz : f.size = 0)
    (hpre : ∀ g ∈ pre, g.get_name ≠ some n) (hpos : 1 ≤ sizeSum pre) :
    s.get_range n = .value (some (sizeSum pre - 1, sizeSum pre)) := by
  have hmain := get_range_first_match s pre post f n hs hn hpre
  rw [hmain, hz, if_neg (by omega)]
  simp

/-- Witness for C9: in `[Integer "a" 4, Integer "z" 0]` the zero-width field
`"z"` sits above 4 bits, and `get_range "z"` returns the inverted range
`(3, 4)`. -/
theorem C9_zero_width_inverted_range_witness :
    (Structure.new "s" [Field.Integer "a" 4, Field.Integer "z" 0]).get_range "z"
      = .value (some (3, 4)) :=
  C9_zero_width_inverted_range _ [Field.Integer "a" 4] [] (Field.Integer "z" 0) "z"
    (by rfl) (by rfl) (by rfl) (by decide) (by decide)

/-- C10: whenever the range resolves to `(high, low)` with width
`high - low + 1 ≤ 63` and `get_integer` succeeds with value `x`, the
extracted value fits in the field width: `x ≤ 2^width - 1`, regardless of
the other bits of `data`. -/
theorem C10_extracted_fits_width (v : Value) (n : String) (high low x : Nat)
    (hr : v.strct.get_range n = .value (some (high, low)))
    (hw : high - low + 1 ≤ 63)
    (hx : v.get_integer n = .value (some x)) :
    x ≤ 2 ^ (high - low + 1) - 1 := by
  have hmod : (high - low + 1) % 2 ^ 32 = high - low + 1 :=
    Nat.mod_eq_of_lt (by omega)
  have hmask : mask (high - low + 1) = .value (2 ^ (high - low + 1) - 1) := by
    simp only [mask]
    rw [hmod, if_neg (by omega)]
  simp only [Value.get_integer, Value.get_as_integer, hr, hmask] at hx
  split at hx
  · simp at hx
  · split at hx
    · simp at hx
    · simp only [PanicOr.value.injEq, Option.some.injEq] at hx
      rw [← hx]
      exact Nat.and_le_right

/-- Witness for C10: the 4-bit field `"f"` over `data = 0xFF` extracts 15,
which is at most `2^4 - 1`. -/
theorem C10_extracted_fits_width_witness :
    (15 : Nat) ≤ 2 ^ (3 - 0 + 1) - 1 :=
  C10_extracted_fits_width (Value.new 0xFF (Structure.new "s" [Field.Integer "f" 4]))
    "f" 3 0 15 (by decide) (by decide) (by decide)

example :
    (Structure.new "reg" [Field.Boolean "active", Field.Integer "lifetime" 4]).get_range "lifetime"
      = .value (some (4, 1)) := by decide

example :
    (Value.new 0xFFE5 (Structure.new "reg"
      [Field.Integer "low_nibble_a" 4, Field.Integer "high_nibble_a" 4,
       Field.Integer "high_byte_b" 8])).get_integer "high_nibble_a"
      = .value (some 0xE) := by decide

end Bitter
